import Mathlib

/-!
Verification of the DMG packaging pipeline (`build/darwin/create-dmg.ts`):
a shallow embedding of `getDirectorySize`, `createDMG` and the CLI entry
point, with filesystem effects made explicit, and proofs of the spec's
claims about them.

Paths are modelled as `List Char` (mirroring JavaScript strings), the
filesystem as explicit lists of file and directory paths, and each external
`hdiutil` / `ln` invocation as an event in a trace, with an environment
record injecting the success/failure of every external operation.
-/

/-- `p = c` as a Bool, for filters over paths. -/
def charListEq (a b : List Char) : Bool := a == b

/-- Does `pat` match at the head of `s`? (substring match anchored at 0). -/
def matchesAt : List Char → List Char → Bool
  | [], _ => true
  | _ :: _, [] => false
  | p :: ps, c :: cs => p == c && matchesAt ps cs

/-- JavaScript `String.prototype.replace` with a string pattern: replaces only
the FIRST occurrence of `pat` by `repl`; returns the string unchanged when
`pat` does not occur. Embeds line 40: `outputPath.replace('.dmg', '-temp.dmg')`. -/
def replaceFirst (pat repl : List Char) : List Char → List Char
  | [] => if pat = [] then repl else []
  | c :: rest =>
      if matchesAt pat (c :: rest) then repl ++ (c :: rest).drop pat.length
      else c :: replaceFirst pat repl rest

/-- The `.dmg` extension as a character list. -/
def dmgExt : List Char := '.' :: 'd' :: 'm' :: 'g' :: []

/-- The `-temp.dmg` replacement as a character list. -/
def tempRepl : List Char := '-' :: 't' :: 'e' :: 'm' :: 'p' :: '.' :: 'd' :: 'm' :: 'g' :: []

/-- Line 40: `const tempDmgPath = outputPath.replace('.dmg', '-temp.dmg');`. -/
def tempDmgPath (outputPath : List Char) : List Char :=
  replaceFirst dmgExt tempRepl outputPath

/-- Node `path.dirname` (POSIX, no trailing-slash normalisation): everything up
to the last `/`; `.` when there is no slash, `/` when the last slash is leading. -/
def dirname (p : List Char) : List Char :=
  match (p.reverse).dropWhile (fun c => !(c == '/')) with
  | [] => ['.']
  | '/' :: [] => ['/']
  | _ :: rest => rest.reverse

/-- A directory tree: the source bundle's contents for `getDirectorySize`.
Regular files carry their byte size; directories carry named entries. -/
inductive FSTree where
  | file (size : Nat)
  | dir (entries : List (String × FSTree))

mutual

/-- Lines 16–32: `getDirectorySize` sums `stats.size` over regular files and
recurses into directories, accumulating over the `readdirSync` listing in order. -/
def getDirectorySize : FSTree → Nat
  | .file sz => sz
  | .dir entries => sizeOfEntries entries

/-- The `for (const file of files)` accumulation of lines 20–29. -/
def sizeOfEntries : List (String × FSTree) → Nat
  | [] => 0
  | e :: rest => getDirectorySize e.2 + sizeOfEntries rest

end

mutual

/-- The multiset of the sizes of all regular files reachable from a tree
(directories contribute nothing directly). -/
def fileSizes : FSTree → Multiset Nat
  | .file sz => {sz}
  | .dir entries => fileSizesOfEntries entries

/-- Multiset of regular-file sizes over a directory listing. -/
def fileSizesOfEntries : List (String × FSTree) → Multiset Nat
  | [] => 0
  | e :: rest => fileSizes e.2 + fileSizesOfEntries rest

end

/-- Line 50: `Math.ceil(appSize / (1024 * 1024)) + 50`, as exact natural
ceiling division (1024 * 1024 = 1048576). -/
def requiredSizeMB (appSize : Nat) : Nat :=
  (appSize + (1024 * 1024 - 1)) / (1024 * 1024) + 50

example : requiredSizeMB 838860800 = 850 := by decide
example : tempDmgPath ("out.dmg".toList) = "out-temp.dmg".toList := by decide
example : tempDmgPath ("out.img".toList) = "out.img".toList := by decide
example : dirname ("/a/b".toList) = "/a".toList := by decide
example : dirname ("a".toList) = ".".toList := by decide
example : dirname ("/a".toList) = "/".toList := by decide

/-- Whitespace removed by JavaScript `String.prototype.trim` (the cases that
can occur in tool output). -/
def isJsSpace (c : Char) : Bool := c == ' ' || c == '\t' || c == '\n' || c == '\r'

/-- JavaScript `String.prototype.trim` on a character list. -/
def jsTrim (s : List Char) : List Char :=
  ((s.dropWhile isJsSpace).reverse.dropWhile isJsSpace).reverse

/-- The literal `/Volumes/` of the mount-point regex. -/
def volumesPat : List Char := "/Volumes/".toList

/-- Line 82: first match of the regex `\/Volumes\/[^\n]+` in the attach
output — the first position where the literal `/Volumes/` is followed by at
least one non-newline character; the match extends greedily to end of line. -/
def findMount : List Char → Option (List Char)
  | [] => none
  | c :: rest =>
      if matchesAt volumesPat (c :: rest)
          && !(((c :: rest).drop volumesPat.length).takeWhile (fun d => !(d == '\n'))).isEmpty then
        some (volumesPat ++ ((c :: rest).drop volumesPat.length).takeWhile (fun d => !(d == '\n')))
      else findMount rest

/-- The external stages whose invocations can fail. -/
inductive Stage where
  | create
  | attach
  | lnsym
  | detach
  | convert
deriving DecidableEq

/-- Errors thrown by `createDMG`. -/
inductive Err where
  | appNotFound (p : List Char)
  | cmdFailed (s : Stage)
  | parseError
deriving DecidableEq

/-- Trace events: each filesystem mutation and external invocation, in order. -/
inductive Event where
  | mkdirRec (p : List Char)
  | unlink (p : List Char)
  | hcreate (sizeMB : Nat)
  | hattach
  | lnsym
  | hdetach (mountPoint : List Char)
  | hconvert
deriving DecidableEq

/-- The filesystem: which paths currently hold a regular file, and which hold
a directory. -/
structure FS where
  files : List (List Char)
  dirs : List (List Char)
deriving DecidableEq

/-- `fs.existsSync(p)`: a file or directory exists at `p`. -/
def existsSync (p : List Char) (fs : FS) : Prop := p ∈ fs.files ∨ p ∈ fs.dirs

instance existsSyncDecidable (p : List Char) (fs : FS) : Decidable (existsSync p fs) := by
  unfold existsSync
  infer_instance

/-- A new regular file appears at `p`. -/
def addFile (p : List Char) (fs : FS) : FS := { fs with files := p :: fs.files }

/-- `fs.unlinkSync(p)`: the regular file at `p` is removed. -/
def unlinkFile (p : List Char) (fs : FS) : FS :=
  { fs with files := fs.files.filter (fun q => !(q == p)) }

/-- The chain `p, dirname p, dirname (dirname p), …` down to the filesystem
root (`/`) or the relative root (`.`), with enough fuel to reach it. -/
def pathChain : Nat → List Char → List (List Char)
  | 0, _ => []
  | n + 1, p =>
      if p = [] ∨ p = ['.'] ∨ p = ['/'] then []
      else p :: pathChain n (dirname p)

/-- Lines 56–59 with `{ recursive: true }`: create the directory and all of
its missing ancestors. -/
def mkdirRecursive (p : List Char) (fs : FS) : FS :=
  { fs with dirs := pathChain (p.length + 2) p ++ fs.dirs }

/-- Lines 89–95, the Volume Decorator: create the `Applications` symlink only
if absent. Input: whether the link already exists in the mounted volume and
whether the `ln` invocation would fail; on success returns the new link state
and whether a creation operation was performed. -/
def decorateVolume (lnFails : Bool) (linkExists : Bool) : Except Err (Bool × Bool) :=
  if linkExists then .ok (true, false)
  else if lnFails then .error (.cmdFailed .lnsym)
  else .ok (true, true)

/-- Failure injection for the external operations, plus the attach output the
mount point is parsed from and the initial state of the volume's link. -/
structure Env where
  createFails : Bool
  createLeavesPartial : Bool
  attachFails : Bool
  attachOutput : List Char
  linkAlreadyExists : Bool
  lnFails : Bool
  detachFails : Bool
  convertFails : Bool

/-- Lines 89–100: the mounted scope — the decoration body with a `finally`
detach. A `finally` that throws replaces the body's outcome, as in JavaScript.
Returns the scope result, the final link state, and the events in order. -/
def mountedScope (env : Env) (mp : List Char) : Except Err Unit × Bool × List Event :=
  let body : Except Err Unit × Bool :=
    match decorateVolume env.lnFails env.linkAlreadyExists with
    | .ok (link, _) => (.ok (), link)
    | .error e => (.error e, env.linkAlreadyExists)
  let bodyEvents : List Event := if env.linkAlreadyExists then [] else [.lnsym]
  let res : Except Err Unit :=
    if env.detachFails then .error (.cmdFailed .detach) else body.1
  (res, body.2, bodyEvents ++ [.hdetach mp])

/-- Lines 69–113: the body of the outer `try` — create the staging image,
attach it, parse the mount point, run the mounted scope, convert. -/
def tryBody (env : Env) (tree : FSTree) (tempDmg outputPath : List Char) (fs : FS) :
    Except Err Unit × FS × List Event :=
  let sizeMB := requiredSizeMB (getDirectorySize tree)
  if env.createFails then
    (.error (.cmdFailed .create),
     if env.createLeavesPartial then addFile tempDmg fs else fs,
     [.hcreate sizeMB])
  else
    let fs1 := addFile tempDmg fs
    if env.attachFails then
      (.error (.cmdFailed .attach), fs1, [.hcreate sizeMB, .hattach])
    else
      match findMount env.attachOutput with
      | none => (.error .parseError, fs1, [.hcreate sizeMB, .hattach])
      | some m =>
          let mp := jsTrim m
          let sc := mountedScope env mp
          match sc.1 with
          | .error e => (.error e, fs1, .hcreate sizeMB :: .hattach :: sc.2.2)
          | .ok _ =>
              if env.convertFails then
                (.error (.cmdFailed .convert), fs1,
                 .hcreate sizeMB :: .hattach :: (sc.2.2 ++ [.hconvert]))
              else
                (.ok (), addFile outputPath fs1,
                 .hcreate sizeMB :: .hattach :: (sc.2.2 ++ [.hconvert]))

/-- The observable outcome of one `createDMG` run. -/
structure RunResult where
  result : Except Err Unit
  fs : FS
  trace : List Event

/-- Lines 62–67 and 116–118: `if (fs.existsSync(p)) fs.unlinkSync(p)`. -/
def clearIfExists (p : List Char) (fs : FS) : FS × List Event :=
  if existsSync p fs then (unlinkFile p fs, [.unlink p]) else (fs, [])

/-- Lines 37–120: the pipeline Orchestrator `createDMG`. `tree` is the content
of the source bundle at `appPath` (read by the size measurement); `fs0` is the
initial filesystem. -/
def createDMG (env : Env) (tree : FSTree) (appPath outputPath : List Char) (fs0 : FS) :
    RunResult :=
  let tempDmg := tempDmgPath outputPath
  if existsSync appPath fs0 then
    let outputDir := dirname outputPath
    let stepDir : FS × List Event :=
      if existsSync outputDir fs0 then (fs0, [])
      else (mkdirRecursive outputDir fs0, [.mkdirRec outputDir])
    let stepTemp := clearIfExists tempDmg stepDir.1
    let stepOut := clearIfExists outputPath stepTemp.1
    let body := tryBody env tree tempDmg outputPath stepOut.1
    let cleanup := clearIfExists tempDmg body.2.1
    { result := body.1,
      fs := cleanup.1,
      trace := stepDir.2 ++ stepTemp.2 ++ stepOut.2 ++ body.2.2 ++ cleanup.2 }
  else
    { result := .error (.appNotFound appPath), fs := fs0, trace := [] }

/-- What the CLI entry point does. -/
inductive CliOutcome where
  | usage (exitCode : Nat)
  | ran (r : RunResult)

/-- Lines 123–140: the CLI. With fewer than two positional arguments it prints
the usage text and exits with status 1 without entering `createDMG`; otherwise
it runs the pipeline on the first two arguments. -/
def cliMain (env : Env) (tree : FSTree) (args : List (List Char)) (fs0 : FS) :
    CliOutcome × FS :=
  if args.length < 2 then (.usage 1, fs0)
  else
    match args with
    | a :: o :: _ =>
        let r := createDMG env tree a o fs0
        (.ran r, r.fs)
    | _ => (.usage 1, fs0)

/-- Exact natural ceiling division agrees with the rational ceiling. -/
lemma ceilDiv_eq_natCeil (s : ℕ) :
    (s + 1048575) / 1048576 = ⌈(s : ℚ) / 1048576⌉₊ := by
  refine (eq_of_forall_ge_iff fun n => ?_)
  rw [Nat.ceil_le, div_le_iff₀ (by norm_num : (0:ℚ) < 1048576),
    Nat.div_le_iff_le_mul_add_pred (by norm_num : 0 < 1048576)]
  constructor
  · intro h
    have hs : s ≤ 1048576 * n := by omega
    have : (s : ℚ) ≤ 1048576 * n := by exact_mod_cast hs
    linarith
  · intro h
    have hs : (s : ℚ) ≤ 1048576 * n := by linarith
    have : s ≤ 1048576 * n := by exact_mod_cast hs
    omega

/-- The computed capacity is the spec's `ceil(size_bytes / 1_048_576) + 50`. -/
lemma requiredSizeMB_eq_ceil (s : ℕ) :
    requiredSizeMB s = ⌈(s : ℚ) / 1048576⌉₊ + 50 := by
  have h := ceilDiv_eq_natCeil s
  unfold requiredSizeMB
  norm_num at h ⊢
  exact h

mutual

/-- The traversal sum equals the multiset sum of regular-file sizes. -/
lemma getDirectorySize_eq_sum : ∀ t : FSTree, getDirectorySize t = (fileSizes t).sum
  | .file sz => by simp [getDirectorySize, fileSizes]
  | .dir entries => by
      rw [getDirectorySize, fileSizes, sizeOfEntries_eq_sum entries]

/-- Listing-level version of `getDirectorySize_eq_sum`. -/
lemma sizeOfEntries_eq_sum :
    ∀ l : List (String × FSTree), sizeOfEntries l = (fileSizesOfEntries l).sum
  | [] => by simp [sizeOfEntries, fileSizesOfEntries]
  | e :: rest => by
      rw [sizeOfEntries, fileSizesOfEntries, Multiset.sum_add,
        getDirectorySize_eq_sum e.2, sizeOfEntries_eq_sum rest]

end

/-- The accumulation over a listing is a sum over its mapped sizes. -/
lemma sizeOfEntries_eq_map_sum (l : List (String × FSTree)) :
    sizeOfEntries l = (l.map (fun e => getDirectorySize e.2)).sum := by
  induction l with
  | nil => simp [sizeOfEntries]
  | cons e rest ih => simp [sizeOfEntries, ih]

/-- A fully successful environment: every external operation succeeds and the
attach output contains a parseable `/Volumes/…` line. -/
def envHappy : Env :=
  { createFails := false, createLeavesPartial := false, attachFails := false,
    attachOutput := "/dev/disk4 Apple_HFS /Volumes/Code - OSS\n".toList,
    linkAlreadyExists := false, lnFails := false, detachFails := false,
    convertFails := false }

/-- Fixture source-bundle path. -/
def appFix : List Char := "/src/App.app".toList

/-- Fixture output path. -/
def outFix : List Char := "/out/X.dmg".toList

/-- Fixture filesystem: the source bundle exists, nothing else. -/
def fsFix : FS := { files := [], dirs := ["/src/App.app".toList] }

/-- Fixture bundle measuring exactly 800 MB (838860800 bytes). -/
def tree800 : FSTree := .dir [("Contents", .file 838860800)]

/-- C3: for every measured source size, the planned capacity in whole
megabytes is `ceil(size_bytes / 1048576) + 50`; for a bundle of exactly
838860800 bytes the capacity is 850 and the create invocation is issued with
size argument 850 (MB). -/
theorem claim_C3_capacity :
    (∀ s : ℕ, requiredSizeMB s = ⌈(s : ℚ) / 1048576⌉₊ + 50) ∧
    requiredSizeMB 838860800 = 850 ∧
    Event.hcreate 850 ∈ (createDMG envHappy tree800 appFix outFix fsFix).trace := by
  exact ⟨requiredSizeMB_eq_ceil, by decide, by decide⟩

/-- C4: the Size Estimator returns the sum of the sizes of all regular files
reachable from the tree (directories contribute zero directly, their contents
summed by unbounded-depth recursion), and the result is invariant under
reordering of directory listings. -/
theorem claim_C4_size :
    (∀ t : FSTree, getDirectorySize t = (fileSizes t).sum) ∧
    (∀ l l' : List (String × FSTree), l.Perm l' →
      getDirectorySize (.dir l) = getDirectorySize (.dir l')) := by
  refine ⟨getDirectorySize_eq_sum, fun l l' hp => ?_⟩
  rw [getDirectorySize, getDirectorySize, sizeOfEntries_eq_map_sum,
    sizeOfEntries_eq_map_sum]
  exact List.Perm.sum_eq (hp.map _)

/-- C4 witness: a concrete tree and a concrete listing transposition. -/
theorem claim_C4_size_witness :
    getDirectorySize (.dir [("a", .file 3), ("b", .dir [("c", .file 5)])]) =
      (fileSizes (.dir [("a", .file 3), ("b", .dir [("c", .file 5)])])).sum ∧
    getDirectorySize (.dir [("a", .file 3), ("b", .file 5)]) =
      getDirectorySize (.dir [("b", .file 5), ("a", .file 3)]) :=
  ⟨claim_C4_size.1 _, claim_C4_size.2 _ _ (List.Perm.swap _ _ _)⟩

/-- A path is never a member of the file list after it has been cleared. -/
lemma not_mem_clearIfExists (p : List Char) (fs : FS) :
    p ∉ (clearIfExists p fs).1.files := by
  unfold clearIfExists
  split
  · simp [unlinkFile, List.mem_filter]
  · intro hmem
    exact ‹¬ existsSync p fs› (Or.inl hmem)

/-- C1: whenever the source bundle exists, `createDMG` leaves no file at the
temporary staging path on exit, whichever stage failed — the removal is the
unconditional `finally` cleanup. -/
theorem claim_C1_cleanup (env : Env) (tree : FSTree) (appPath outputPath : List Char)
    (fs0 : FS) (h : existsSync appPath fs0) :
    tempDmgPath outputPath ∉ (createDMG env tree appPath outputPath fs0).fs.files := by
  unfold createDMG
  rw [if_pos h]
  exact not_mem_clearIfExists _ _

/-- C1 witness: concrete run in which the attach stage fails. -/
theorem claim_C1_cleanup_witness :
    tempDmgPath outFix ∉
      (createDMG { envHappy with attachFails := true } tree800 appFix outFix fsFix).fs.files :=
  claim_C1_cleanup _ _ _ _ _ (by decide)

/-- C5: when the source bundle does not exist, the pipeline fails immediately
with a not-found error, the filesystem is untouched and no external command or
filesystem mutation is performed. -/
theorem claim_C5_validate (env : Env) (tree : FSTree) (appPath outputPath : List Char)
    (fs0 : FS) (h : ¬ existsSync appPath fs0) :
    (createDMG env tree appPath outputPath fs0).result = .error (.appNotFound appPath) ∧
    (createDMG env tree appPath outputPath fs0).fs = fs0 ∧
    (createDMG env tree appPath outputPath fs0).trace = [] := by
  unfold createDMG
  rw [if_neg h]
  exact ⟨rfl, rfl, rfl⟩

/-- C5 witness: source bundle missing from an empty filesystem. -/
theorem claim_C5_validate_witness :
    (createDMG envHappy tree800 appFix outFix { files := [], dirs := [] }).result =
      .error (.appNotFound appFix) ∧
    (createDMG envHappy tree800 appFix outFix { files := [], dirs := [] }).fs =
      { files := [], dirs := [] } ∧
    (createDMG envHappy tree800 appFix outFix { files := [], dirs := [] }).trace = [] :=
  claim_C5_validate _ _ _ _ _ (by decide)

/-- C7: the Volume Decorator is idempotent — on an already-decorated volume it
performs no creation operation, and the volume state after decorating twice is
the state after decorating once. -/
theorem claim_C7_idempotent :
    (∀ f : Bool, decorateVolume f true = .ok (true, false)) ∧
    (∀ f s s' did : Bool, decorateVolume f s = .ok (s', did) →
      decorateVolume f s' = .ok (s', false)) := by
  constructor
  · intro f
    simp [decorateVolume]
  · intro f s s' did h
    cases s <;> cases f <;> simp_all [decorateVolume]

/-- C7 witness: decorating a fresh volume, then decorating again. -/
theorem claim_C7_idempotent_witness :
    decorateVolume true true = .ok (true, false) ∧
    decorateVolume false true = .ok (true, false) :=
  ⟨claim_C7_idempotent.1 true, claim_C7_idempotent.2 false false true true rfl⟩

/-- C8: with fewer than two positional arguments the CLI prints the usage
message and exits with status 1, never entering `createDMG` and leaving the
filesystem untouched. -/
theorem claim_C8_usage (env : Env) (tree : FSTree) (args : List (List Char)) (fs0 : FS)
    (h : args.length < 2) :
    cliMain env tree args fs0 = (.usage 1, fs0) := by
  unfold cliMain
  rw [if_pos h]

/-- C8 witness: a single-argument invocation. -/
theorem claim_C8_usage_witness :
    cliMain envHappy tree800 [appFix] fsFix = (.usage 1, fsFix) :=
  claim_C8_usage _ _ _ _ (by decide)

/-- When no occurrence of `.dmg` starts inside `stem`, the first-occurrence
replacement rewrites exactly the final extension. -/
lemma replaceFirst_at_end (stem : List Char)
    (h : ∀ i, i < stem.length → matchesAt dmgExt ((stem ++ dmgExt).drop i) = false) :
    replaceFirst dmgExt tempRepl (stem ++ dmgExt) = stem ++ tempRepl := by
  induction stem with
  | nil => rfl
  | cons c rest ih =>
      have h0 : matchesAt dmgExt (c :: (rest ++ dmgExt)) = false := by
        have := h 0 (by simp)
        simpa using this
      have hrest : ∀ i, i < rest.length →
          matchesAt dmgExt ((rest ++ dmgExt).drop i) = false := by
        intro i hi
        have := h (i + 1) (by simpa using Nat.succ_lt_succ hi)
        simpa [List.drop_succ_cons] using this
      simp only [List.cons_append, replaceFirst, List.append_eq, h0,
        Bool.false_eq_true, if_false, ih hrest]

/-- Dropping a prefix that satisfies the predicate throughout. -/
lemma dropWhile_append_of_all (q : Char → Bool) (t s : List Char)
    (h : ∀ c ∈ t, q c = true) :
    (t ++ s).dropWhile q = s.dropWhile q := by
  induction t with
  | nil => rfl
  | cons c rest ih =>
      simp only [List.cons_append, List.dropWhile_cons, h c (by simp), if_true]
      exact ih (fun x hx => h x (by simp [hx]))

/-- Appending slash-free characters does not change the directory part. -/
lemma dirname_append (s t : List Char) (h : ∀ c ∈ t, (c == '/') = false) :
    dirname (s ++ t) = dirname s := by
  unfold dirname
  rw [List.reverse_append,
    dropWhile_append_of_all _ t.reverse s.reverse (by
      intro c hc
      rw [List.mem_reverse] at hc
      simp [h c hc])]

/-- C6 counterexample: the temporary path is `outputPath.replace('.dmg',
'-temp.dmg')`, which replaces only the first occurrence of `.dmg` and leaves
the path unchanged when `.dmg` is absent — for output path `out.img` the
"temporary" path coincides with the output path, and for
`/app.dmg/installer.dmg` it lands in a different directory. -/
theorem claim_C6_counterexample :
    tempDmgPath ("out.img".toList) = "out.img".toList ∧
    dirname (tempDmgPath ("/app.dmg/installer.dmg".toList)) ≠
      dirname ("/app.dmg/installer.dmg".toList) := by
  constructor
  · decide
  · decide

/-- C6 amended: for every output path whose first occurrence of `.dmg` is its
final extension, the temporary staging path is the sibling path with the same
directory, the same base name, the distinguishing suffix `-temp` and the same
`.dmg` extension, and is distinct from the output path. -/
theorem claim_C6_temp_path (stem : List Char)
    (h : ∀ i, i < stem.length → matchesAt dmgExt ((stem ++ dmgExt).drop i) = false) :
    tempDmgPath (stem ++ dmgExt) = (stem ++ "-temp".toList) ++ dmgExt ∧
    dirname (tempDmgPath (stem ++ dmgExt)) = dirname (stem ++ dmgExt) ∧
    tempDmgPath (stem ++ dmgExt) ≠ stem ++ dmgExt := by
  have h1 : tempDmgPath (stem ++ dmgExt) = stem ++ tempRepl := replaceFirst_at_end stem h
  have h2 : stem ++ tempRepl = (stem ++ "-temp".toList) ++ dmgExt := by
    rw [List.append_assoc]
    rfl
  refine ⟨h1.trans h2, ?_, ?_⟩
  · rw [h1, dirname_append stem tempRepl (by decide),
      dirname_append stem dmgExt (by decide)]
  · rw [h1]
    intro heq
    have hlen := congrArg List.length heq
    simp [tempRepl, dmgExt, List.length_append] at hlen

/-- C6 witness: the ordinary output path `/build/out.dmg`. -/
theorem claim_C6_temp_path_witness :
    tempDmgPath ("/build/out".toList ++ dmgExt) =
      (("/build/out".toList ++ "-temp".toList) ++ dmgExt) ∧
    dirname (tempDmgPath ("/build/out".toList ++ dmgExt)) =
      dirname ("/build/out".toList ++ dmgExt) ∧
    tempDmgPath ("/build/out".toList ++ dmgExt) ≠ "/build/out".toList ++ dmgExt :=
  claim_C6_temp_path _ (by decide)

/-- Whatever happens in the mounted scope, the `hdetach` invocation for the
parsed mount point is among the events of the `try` body. -/
lemma hdetach_mem_tryBody (env : Env) (tree : FSTree) (tempDmg outputPath : List Char)
    (fs : FS) (m : List Char)
    (hc : env.createFails = false) (ha : env.attachFails = false)
    (hm : findMount env.attachOutput = some m) :
    Event.hdetach (jsTrim m) ∈ (tryBody env tree tempDmg outputPath fs).2.2 := by
  unfold tryBody
  simp only [hc, ha, hm, Bool.false_eq_true, if_false]
  cases hsc : (mountedScope env (jsTrim m)).1 with
  | error e => simp [mountedScope]
  | ok u => cases hcv : env.convertFails <;> simp [hcv, mountedScope]

/-- When decoration fails (link absent, `ln` failing) and detach succeeds, the
`try` body reports the decoration failure. -/
lemma tryBody_ln_fail (env : Env) (tree : FSTree) (tempDmg outputPath : List Char)
    (fs : FS) (m : List Char)
    (hc : env.createFails = false) (ha : env.attachFails = false)
    (hm : findMount env.attachOutput = some m)
    (hl : env.linkAlreadyExists = false) (hln : env.lnFails = true)
    (hd : env.detachFails = false) :
    (tryBody env tree tempDmg outputPath fs).1 = .error (.cmdFailed .lnsym) := by
  unfold tryBody
  simp only [hc, ha, hm, Bool.false_eq_true, if_false]
  have hsc : (mountedScope env (jsTrim m)).1 = .error (.cmdFailed .lnsym) := by
    simp [mountedScope, decorateVolume, hl, hln, hd]
  simp [hsc]

/-- C2: in every run that mounts the staging image and parses a mount point,
the detach invocation on that mount point is executed inside the mounted
scope — in particular before `createDMG` returns — on every exit path,
including a failing decoration step, in which case the reported failure is
the decoration error. -/
theorem claim_C2_detach (env : Env) (tree : FSTree) (appPath outputPath : List Char)
    (fs0 : FS) (m : List Char)
    (happ : existsSync appPath fs0)
    (hc : env.createFails = false) (ha : env.attachFails = false)
    (hm : findMount env.attachOutput = some m) :
    Event.hdetach (jsTrim m) ∈ (createDMG env tree appPath outputPath fs0).trace ∧
    (env.linkAlreadyExists = false → env.lnFails = true → env.detachFails = false →
      (createDMG env tree appPath outputPath fs0).result = .error (.cmdFailed .lnsym)) := by
  unfold createDMG
  rw [if_pos happ]
  constructor
  · simp only [List.mem_append]
    exact Or.inl (Or.inr (hdetach_mem_tryBody env tree _ outputPath _ m hc ha hm))
  · intro hl hln hd
    exact tryBody_ln_fail env tree _ outputPath _ m hc ha hm hl hln hd

/-- C2 witness: a run whose decoration step fails while mounted. -/
theorem claim_C2_detach_witness :
    Event.hdetach (jsTrim "/Volumes/Code - OSS".toList) ∈
      (createDMG { envHappy with lnFails := true } tree800 appFix outFix fsFix).trace ∧
    (({ envHappy with lnFails := true } : Env).linkAlreadyExists = false →
      ({ envHappy with lnFails := true } : Env).lnFails = true →
      ({ envHappy with lnFails := true } : Env).detachFails = false →
      (createDMG { envHappy with lnFails := true } tree800 appFix outFix fsFix).result =
        .error (.cmdFailed .lnsym)) :=
  claim_C2_detach _ _ _ _ _ _ (by decide) rfl rfl (by decide)

/-- A failing decoration or detach makes the mounted scope report an error. -/
lemma mountedScope_fail (env : Env) (mp : List Char)
    (h : (env.linkAlreadyExists = false ∧ env.lnFails = true) ∨ env.detachFails = true) :
    ∃ e, (mountedScope env mp).1 = .error e := by
  unfold mountedScope
  rcases h with ⟨hl, hln⟩ | hd
  · cases hdf : env.detachFails <;> simp [decorateVolume, hl, hln, hdf]
  · simp [hd]

/-- If any stage from staging-image creation through unmount fails, the `try`
body reports an error, and its filesystem differs from the input only by
(possibly) a file at the temporary path. -/
lemma tryBody_fail (env : Env) (tree : FSTree) (tempDmg outputPath : List Char) (fs : FS)
    (h : env.createFails = true ∨ env.attachFails = true ∨
      findMount env.attachOutput = none ∨
      ((env.linkAlreadyExists = false ∧ env.lnFails = true) ∨ env.detachFails = true)) :
    (∃ e, (tryBody env tree tempDmg outputPath fs).1 = .error e) ∧
    ((tryBody env tree tempDmg outputPath fs).2.1.files = fs.files ∨
      (tryBody env tree tempDmg outputPath fs).2.1.files = tempDmg :: fs.files) := by
  unfold tryBody
  cases hcf : env.createFails with
  | true =>
      cases hpart : env.createLeavesPartial <;> simp [addFile, hcf, hpart]
  | false =>
      cases haf : env.attachFails with
      | true => simp [addFile, hcf, haf]
      | false =>
          cases hfm : findMount env.attachOutput with
          | none => simp [addFile, hcf, haf, hfm]
          | some m =>
              have h' : (env.linkAlreadyExists = false ∧ env.lnFails = true) ∨
                  env.detachFails = true := by
                rcases h with h | h | h | h
                · rw [hcf] at h; cases h
                · rw [haf] at h; cases h
                · rw [hfm] at h; cases h
                · exact h
              obtain ⟨e, he⟩ := mountedScope_fail env (jsTrim m) h'
              simp [addFile, hcf, haf, hfm, he]

/-- Clearing can only remove files. -/
lemma mem_of_mem_clearIfExists (p q : List Char) (fs : FS)
    (h : q ∈ (clearIfExists p fs).1.files) : q ∈ fs.files := by
  unfold clearIfExists at h
  split at h
  · exact (List.mem_filter.mp h).1
  · exact h

/-- After the unconditional cleanup, the output path holds no file when the
`try` body failed before conversion. -/
lemma out_not_mem_final (env : Env) (tree : FSTree) (tempDmg outputPath : List Char)
    (fs : FS) (hnot : outputPath ∉ fs.files)
    (hfiles : (tryBody env tree tempDmg outputPath fs).2.1.files = fs.files ∨
      (tryBody env tree tempDmg outputPath fs).2.1.files = tempDmg :: fs.files) :
    outputPath ∉ (clearIfExists tempDmg (tryBody env tree tempDmg outputPath fs).2.1).1.files := by
  by_cases hq : outputPath = tempDmg
  · subst hq
    exact not_mem_clearIfExists _ _
  · intro hmem
    have hbody := mem_of_mem_clearIfExists _ _ _ hmem
    rcases hfiles with hf | hf
    · rw [hf] at hbody
      exact hnot hbody
    · rw [hf] at hbody
      rcases List.mem_cons.mp hbody with h1 | h1
      · exact hq h1
      · exact hnot h1

/-- C9: with a valid source bundle and a pre-existing file at the output path,
if any stage from staging-image creation through unmount fails then `createDMG`
returns an error and no file exists at the output path afterwards — the stale
final artifact was cleared at pipeline start and is not restored. -/
theorem claim_C9_stale_output (env : Env) (tree : FSTree) (appPath outputPath : List Char)
    (fs0 : FS)
    (happ : existsSync appPath fs0)
    (_hout : outputPath ∈ fs0.files)
    (h : env.createFails = true ∨ env.attachFails = true ∨
      findMount env.attachOutput = none ∨
      ((env.linkAlreadyExists = false ∧ env.lnFails = true) ∨ env.detachFails = true)) :
    (∃ e, (createDMG env tree appPath outputPath fs0).result = .error e) ∧
    outputPath ∉ (createDMG env tree appPath outputPath fs0).fs.files := by
  unfold createDMG
  rw [if_pos happ]
  constructor
  · exact (tryBody_fail _ _ _ _ _ h).1
  · exact out_not_mem_final _ _ _ _ _ (not_mem_clearIfExists _ _) (tryBody_fail _ _ _ _ _ h).2

/-- C9 witness: stale file at the output path, attach stage failing. -/
theorem claim_C9_stale_output_witness :
    (∃ e, (createDMG { envHappy with attachFails := true } tree800 appFix outFix
      { files := [outFix], dirs := [appFix, "/out".toList] }).result = .error e) ∧
    outFix ∉ (createDMG { envHappy with attachFails := true } tree800 appFix outFix
      { files := [outFix], dirs := [appFix, "/out".toList] }).fs.files :=
  claim_C9_stale_output _ _ _ _ _ (by decide) (by decide) (by simp)

/-- Clearing a file never changes the directories. -/
lemma clearIfExists_dirs (p : List Char) (fs : FS) :
    (clearIfExists p fs).1.dirs = fs.dirs := by
  unfold clearIfExists
  split <;> rfl

/-- The `try` body never changes the directories. -/
lemma tryBody_dirs (env : Env) (tree : FSTree) (tempDmg outputPath : List Char) (fs : FS) :
    (tryBody env tree tempDmg outputPath fs).2.1.dirs = fs.dirs := by
  unfold tryBody
  dsimp only
  repeat' split
  all_goals rfl

/-- C10: when the source bundle exists but the output directory does not, the
pipeline's very first action is the recursive directory creation — it precedes
the stale-artifact clearing — and afterwards the output directory and all of
its ancestors exist, instead of any stage failing for want of the directory. -/
theorem claim_C10_outputDir (env : Env) (tree : FSTree) (appPath outputPath : List Char)
    (fs0 : FS)
    (happ : existsSync appPath fs0)
    (hdir : ¬ existsSync (dirname outputPath) fs0) :
    (createDMG env tree appPath outputPath fs0).trace.head? =
      some (Event.mkdirRec (dirname outputPath)) ∧
    (∀ q ∈ pathChain ((dirname outputPath).length + 2) (dirname outputPath),
      q ∈ (createDMG env tree appPath outputPath fs0).fs.dirs) := by
  unfold createDMG
  rw [if_pos happ]
  constructor
  · simp only [if_neg hdir, List.cons_append, List.nil_append, List.head?_cons]
  · intro q hq
    simp only [clearIfExists_dirs, tryBody_dirs, if_neg hdir, mkdirRecursive]
    exact List.mem_append_left _ hq

/-- C10 witness: output path `/out/X.dmg` with no `/out` directory yet. -/
theorem claim_C10_outputDir_witness :
    (createDMG envHappy tree800 appFix outFix fsFix).trace.head? =
      some (Event.mkdirRec (dirname outFix)) ∧
    (∀ q ∈ pathChain ((dirname outFix).length + 2) (dirname outFix),
      q ∈ (createDMG envHappy tree800 appFix outFix fsFix).fs.dirs) :=
  claim_C10_outputDir _ _ _ _ _ (by decide) (by decide)
